import Mathlib

/-!
Shallow embedding of the novel-reading-platform view layer (src/views.py)
and proofs about it.  Strings are modelled as `List Char`; the database
tables as Lean lists; each Django view becomes a Lean function from the
request data and the current table contents to an HTTP-level outcome
(and, for mutating views, the new table contents).
-/

/-- Strings of the embedded program: Python `str` as a list of characters. -/
abbrev Str := List Char

/-- Python truthiness / emptiness helpers: `s.strip()` — drop leading and
trailing whitespace. -/
def pyStrip (s : Str) : Str :=
  ((s.dropWhile Char.isWhitespace).reverse.dropWhile Char.isWhitespace).reverse

/-- Python `s.isdigit()` restricted to ASCII: nonempty and all decimal digits. -/
def pyIsDigit (s : Str) : Bool :=
  !s.isEmpty && s.all Char.isDigit

/-- Numeric value of a digit string (used where the code calls `int(s)` after
an `isdigit` guard). -/
def digitsToNat (s : Str) : Nat :=
  s.foldl (fun acc c => acc * 10 + (c.toNat - 48)) 0

/-- Python `int(s)` for a string: strip whitespace, optional sign, then a
nonempty run of decimal digits; `none` models the `ValueError` branch. -/
def pyParseInt (s : Str) : Option Int :=
  match pyStrip s with
  | '+' :: rest => if pyIsDigit rest then some (digitsToNat rest : Int) else none
  | '-' :: rest => if pyIsDigit rest then some (-(digitsToNat rest : Int)) else none
  | rest => if pyIsDigit rest then some (digitsToNat rest : Int) else none

/-- Lower-casing for the case-insensitive `icontains` lookups. -/
def lowerL (s : Str) : Str := s.map Char.toLower

/-- Django `field__icontains=needle`: the lowered needle occurs as a
contiguous substring of the lowered haystack. -/
def icontainsB (hay needle : Str) : Bool :=
  decide (lowerL needle <:+: lowerL hay)

/-- An authenticated user (`request.user` when logged in): primary key and
the superuser flag.  A viewer is `Option User`, `none` being anonymous. -/
structure User where
  id : Nat
  is_superuser : Bool
deriving DecidableEq

/-- The Novel model: pk, text fields, category reference, uploader reference
and the moderation flag. -/
structure Novel where
  id : Nat
  title : Str
  author : Str
  category_id : Nat
  intro : Str
  uploader : Nat
  is_approved : Bool
deriving DecidableEq

/-- The Chapter model: pk, owning novel, ordering number, content, uploader
and the moderation flag. -/
structure Chapter where
  id : Nat
  novel_id : Nat
  title : Str
  sort_num : Int
  content : Str
  uploader : Nat
  is_approved : Bool
deriving DecidableEq

/-- The Comment model: pk, owning chapter, author, content and the
moderation flag (the chapter page lists only approved comments). -/
structure Comment where
  id : Nat
  chapter_id : Nat
  user_id : Nat
  content : Str
  is_approved : Bool
deriving DecidableEq

/-- Validation-error taxonomy of the form-handling branches. -/
inductive VErr where
  | emptyField
  | invalidFormat
  | duplicateOrdering
  | emptyContent
  | contentTooLong
deriving DecidableEq

/-- HTTP-level outcome of a view: the `login_required` redirect, 404, 403,
a re-rendered form carrying a validation error, the server error raised on
an unhandled exception, or a successful response with its payload. -/
inductive Http (α : Type) where
  | redirectLogin : Http α
  | notFound : Http α
  | forbidden : Http α
  | formError : VErr → Http α
  | serverError : Http α
  | ok : α → Http α
deriving DecidableEq

/-- Django `get_object_or_404(Novel, id=i)` over the novels table. -/
def findNovel (novels : List Novel) (i : Nat) : Option Novel :=
  novels.find? (fun n => n.id == i)

/-- Django `get_object_or_404(Chapter, id=i)` over the chapters table. -/
def findChapter (chapters : List Chapter) (i : Nat) : Option Chapter :=
  chapters.find? (fun c => c.id == i)

/-- View `novel_list` (src/views.py:12): only approved novels; filter by
category when the parameter is a nonempty digit string; filter by keyword
(case-insensitive substring of title or author) when nonempty. -/
def novel_list (novels : List Novel) (category_id keyword : Str) : List Novel :=
  let base := novels.filter (fun n => n.is_approved)
  let byCat :=
    if !category_id.isEmpty && pyIsDigit category_id then
      base.filter (fun n => n.category_id == digitsToNat category_id)
    else base
  if !keyword.isEmpty then
    byCat.filter (fun n => icontainsB n.title keyword || icontainsB n.author keyword)
  else byCat

/-- CLAIM C1: a novel in the table is returned by the catalog filter iff it
is approved, the category parameter is unset (empty or not a digit string,
the malformed case being treated as unset, not an error) or matches the
novel's category, and the keyword is unset (empty) or occurs
case-insensitively in the title or the author. -/
theorem novel_list_catalog_filter (novels : List Novel) (cat kw : Str)
    (n : Novel) (hn : n ∈ novels) :
    n ∈ novel_list novels cat kw ↔
      n.is_approved = true ∧
      ((!cat.isEmpty && pyIsDigit cat) = true → n.category_id = digitsToNat cat) ∧
      (kw ≠ [] → lowerL kw <:+: lowerL n.title ∨ lowerL kw <:+: lowerL n.author) := by
  unfold novel_list
  by_cases hc : (!cat.isEmpty && pyIsDigit cat) = true <;>
  by_cases hk : kw = [] <;>
    simp [hc, hk, List.mem_filter, hn, icontainsB, List.isEmpty_iff] <;>
    tauto

/-- Witness for C1 at a concrete table: an approved novel whose author
matches the keyword case-insensitively is returned when the category
parameter is the malformed string "x9". -/
theorem novel_list_catalog_filter_witness :
    (Novel.mk 1 ['B'] ['T', 'o', 'm'] 3 [] 7 true) ∈
        [Novel.mk 1 ['B'] ['T', 'o', 'm'] 3 [] 7 true] ∧
      ((Novel.mk 1 ['B'] ['T', 'o', 'm'] 3 [] 7 true) ∈
          novel_list [Novel.mk 1 ['B'] ['T', 'o', 'm'] 3 [] 7 true]
            ['x', '9'] ['t', 'O', 'm'] ↔
        (Novel.mk 1 ['B'] ['T', 'o', 'm'] 3 [] 7 true).is_approved = true ∧
        ((!(['x', '9'] : Str).isEmpty && pyIsDigit ['x', '9']) = true →
          (Novel.mk 1 ['B'] ['T', 'o', 'm'] 3 [] 7 true).category_id =
            digitsToNat ['x', '9']) ∧
        ((['t', 'O', 'm'] : Str) ≠ [] →
          lowerL ['t', 'O', 'm'] <:+:
              lowerL (Novel.mk 1 ['B'] ['T', 'o', 'm'] 3 [] 7 true).title ∨
            lowerL ['t', 'O', 'm'] <:+:
              lowerL (Novel.mk 1 ['B'] ['T', 'o', 'm'] 3 [] 7 true).author)) :=
  ⟨by decide,
   novel_list_catalog_filter _ _ _ _ (by decide)⟩

/-- Update-in-place of a chapter row, modelling `chapter.save()` after field
assignments. -/
def updateChapter (chapters : List Chapter) (cid : Nat)
    (f : Chapter → Chapter) : List Chapter :=
  chapters.map (fun c => if c.id == cid then f c else c)

/-- Update-in-place of a novel row, modelling `novel.save()`. -/
def updateNovel (novels : List Novel) (nid : Nat)
    (f : Novel → Novel) : List Novel :=
  novels.map (fun n => if n.id == nid then f n else n)

/-- View `chapter_list` (src/views.py:181): `login_required`, then 404 on a
missing novel; a viewer who is neither the uploader nor a superuser sees
only approved chapters, otherwise all chapters of the novel. -/
def chapter_list (viewer : Option User) (novels : List Novel)
    (chapters : List Chapter) (novel_id : Nat) : Http (List Chapter) :=
  match viewer with
  | none => .redirectLogin
  | some u =>
    match findNovel novels novel_id with
    | none => .notFound
    | some novel =>
      if novel.uploader != u.id && !u.is_superuser then
        .ok ((chapters.filter (fun c => c.novel_id == novel.id)).filter
          (fun c => c.is_approved))
      else
        .ok (chapters.filter (fun c => c.novel_id == novel.id))

/-- The advisory next ordering number computed at src/views.py:209-210:
`max(existing_sort_nums) + 1 if existing_sort_nums else 1` over the sort
numbers of the novel's chapters. -/
def next_sort_num (chapters : List Chapter) (novel_id : Nat) : Int :=
  let sorts := (chapters.filter (fun c => c.novel_id == novel_id)).map
    (fun c => c.sort_num)
  match sorts.maximum with
  | none => 1
  | some m => m + 1

/-- View `add_chapter`, POST branch (src/views.py:200): `login_required`,
404 on a missing novel, 403 unless the viewer is the uploader, empty-field
check, `int(sort_num)` conversion, duplicate `sort_num` check against the
novel's chapters, then creation of an unapproved chapter.  Returns the
outcome and the chapters table after the request. -/
def add_chapter (viewer : Option User) (novels : List Novel)
    (chapters : List Chapter) (novel_id : Nat)
    (title sortStr content : Str) (newId : Nat) :
    Http Unit × List Chapter :=
  match viewer with
  | none => (.redirectLogin, chapters)
  | some u =>
    match findNovel novels novel_id with
    | none => (.notFound, chapters)
    | some novel =>
      if novel.uploader != u.id then (.forbidden, chapters)
      else if title.isEmpty || sortStr.isEmpty || content.isEmpty then
        (.formError .emptyField, chapters)
      else
        match pyParseInt sortStr with
        | none => (.formError .invalidFormat, chapters)
        | some sn =>
          if chapters.any (fun c => c.novel_id == novel.id &&
              c.sort_num == sn) then
            (.formError .duplicateOrdering, chapters)
          else
            (.ok (), chapters ++
              [⟨newId, novel.id, title, sn, content, u.id, false⟩])

/-- View `edit_chapter`, POST branch (src/views.py:266): `login_required`,
404 on a missing chapter, 403 unless uploader or superuser, empty-field
check, `int(sort_num)` conversion, duplicate check excluding the chapter
itself, then the update that also resets `is_approved` to false. -/
def edit_chapter (viewer : Option User) (chapters : List Chapter)
    (chapter_id : Nat) (title sortStr content : Str) :
    Http Unit × List Chapter :=
  match viewer with
  | none => (.redirectLogin, chapters)
  | some u =>
    match findChapter chapters chapter_id with
    | none => (.notFound, chapters)
    | some chapter =>
      if chapter.uploader != u.id && !u.is_superuser then
        (.forbidden, chapters)
      else if title.isEmpty || sortStr.isEmpty || content.isEmpty then
        (.formError .emptyField, chapters)
      else
        match pyParseInt sortStr with
        | none => (.formError .invalidFormat, chapters)
        | some sn =>
          if chapters.any (fun c => c.novel_id == chapter.novel_id &&
              c.sort_num == sn && c.id != chapter.id) then
            (.formError .duplicateOrdering, chapters)
          else
            (.ok (), updateChapter chapters chapter.id (fun c =>
              { c with title := title, sort_num := sn, content := content,
                       is_approved := false }))

/-- View `edit_novel`, POST branch (src/views.py:124): `login_required`,
404 on a missing novel, 403 unless uploader or superuser, empty-field
check, category lookup (`get_object_or_404(Category, id=category_id)`,
a non-integer id raising an unhandled `ValueError`), then the update of
title, author, category and intro — `is_approved` is not assigned. -/
def edit_novel (viewer : Option User) (novels : List Novel)
    (categories : List Nat) (novel_id : Nat)
    (title author catStr intro : Str) : Http Unit × List Novel :=
  match viewer with
  | none => (.redirectLogin, novels)
  | some u =>
    match findNovel novels novel_id with
    | none => (.notFound, novels)
    | some novel =>
      if novel.uploader != u.id && !u.is_superuser then
        (.forbidden, novels)
      else if title.isEmpty || author.isEmpty || catStr.isEmpty then
        (.formError .emptyField, novels)
      else
        match pyParseInt catStr with
        | none => (.serverError, novels)
        | some cidI =>
          if categories.any (fun k => (k : Int) == cidI) then
            (.ok (), updateNovel novels novel.id (fun n =>
              { n with title := title, author := author,
                       category_id := cidI.toNat, intro := intro }))
          else (.notFound, novels)

/-- View `approve_novel` (src/views.py:458): `login_required`, then the
superuser check BEFORE the novel lookup, then 404 on a missing novel, then
`is_approved = True` and save. -/
def approve_novel (viewer : Option User) (novels : List Novel)
    (novel_id : Nat) : Http Unit × List Novel :=
  match viewer with
  | none => (.redirectLogin, novels)
  | some u =>
    if !u.is_superuser then (.forbidden, novels)
    else
      match findNovel novels novel_id with
      | none => (.notFound, novels)
      | some novel =>
        (.ok (), updateNovel novels novel.id (fun n =>
          { n with is_approved := true }))

/-- View `approve_chapter` (src/views.py:471): same shape as
`approve_novel`, over the chapters table. -/
def approve_chapter (viewer : Option User) (chapters : List Chapter)
    (chapter_id : Nat) : Http Unit × List Chapter :=
  match viewer with
  | none => (.redirectLogin, chapters)
  | some u =>
    if !u.is_superuser then (.forbidden, chapters)
    else
      match findChapter chapters chapter_id with
      | none => (.notFound, chapters)
      | some chapter =>
        (.ok (), updateChapter chapters chapter.id (fun c =>
          { c with is_approved := true }))

/-- View `add_comment`, POST branch (src/views.py:404): `login_required`,
404 on a missing chapter (no approval filter on the lookup), then
`content.strip()`, the emptiness check, the 500-character limit, then the
creation of a comment tied to the chapter and the submitting user.  The
create call passes no approval flag, so the model default applies —
modelled from the spec: the Comment model sits in models.py (not in
src/), and the spec's reference default is immediately visible, i.e.
`is_approved = true`. -/
def add_comment (viewer : Option User) (chapters : List Chapter)
    (comments : List Comment) (chapter_id : Nat) (rawContent : Str)
    (newId : Nat) : Http Unit × List Comment :=
  match viewer with
  | none => (.redirectLogin, comments)
  | some u =>
    match findChapter chapters chapter_id with
    | none => (.notFound, comments)
    | some chapter =>
      let content := pyStrip rawContent
      if content.isEmpty then (.formError .emptyContent, comments)
      else if content.length > 500 then (.formError .contentTooLong, comments)
      else (.ok (), comments ++ [⟨newId, chapter.id, u.id, content, true⟩])

/-- Python `content.split('\n')` then per-paragraph strip and drop of
empties (src/views.py:360-366). -/
def paragraphsOf (content : Str) : List Str :=
  ((content.splitOn '\n').map pyStrip).filter (fun p => !p.isEmpty)

/-- Django `qs.order_by('-sort_num').first()`: a chapter of greatest
`sort_num` in the list, `none` on an empty list. -/
def firstByDescSort : List Chapter → Option Chapter
  | [] => none
  | c :: cs => some (cs.foldl (fun b x => if x.sort_num > b.sort_num then x else b) c)

/-- Django `qs.order_by('sort_num').first()`: a chapter of least `sort_num`
in the list, `none` on an empty list. -/
def firstByAscSort : List Chapter → Option Chapter
  | [] => none
  | c :: cs => some (cs.foldl (fun b x => if x.sort_num < b.sort_num then x else b) c)

/-- Rendering context of the chapter-detail page. -/
structure DetailPage where
  chapter : Chapter
  comments : List Comment
  paragraphs : List Str
  prev_chapter : Option Chapter
  next_chapter : Option Chapter
deriving DecidableEq

/-- The `can_view` computation of `chapter_detail` (src/views.py:340-350):
approved chapters are visible to everyone, pending ones to the uploader
and to superusers. -/
def canViewChapter (viewer : Option User) (chapter : Chapter) : Bool :=
  (match viewer with
   | some u => u.is_superuser || chapter.uploader == u.id
   | none => false) || chapter.is_approved

/-- View `chapter_detail` (src/views.py:334): 404 on a missing chapter;
then the `can_view` gate — the source does `raise Http404(...)` at
src/views.py:354, but `Http404` is never imported (src/views.py:6 brings
in only the HttpResponse classes), so that line raises `NameError`,
an unhandled exception surfacing as a server error, modelled `.serverError`
like the unhandled `ValueError` in `edit_novel`; then approved-comment
listing, paragraph split, and the prev/next queries.  The source guards
the neighbour queries' approval filter with `if not can_view`
(src/views.py:373) — translated literally, although `can_view` is always
true past the earlier gate. -/
def chapter_detail (viewer : Option User) (chapters : List Chapter)
    (comments : List Comment) (chapter_id : Nat) : Http DetailPage :=
  match findChapter chapters chapter_id with
  | none => .notFound
  | some chapter =>
    let can_view := canViewChapter viewer chapter
    if !can_view then .serverError
    else
      let shownComments := comments.filter
        (fun cm => cm.chapter_id == chapter.id && cm.is_approved)
      let filterApproved := !can_view
      let pool := chapters.filter (fun c => c.novel_id == chapter.novel_id &&
        (!filterApproved || c.is_approved))
      let prev := firstByDescSort (pool.filter
        (fun c => decide (c.sort_num < chapter.sort_num)))
      let nxt := firstByAscSort (pool.filter
        (fun c => decide (c.sort_num > chapter.sort_num)))
      .ok ⟨chapter, shownComments, paragraphsOf chapter.content, prev, nxt⟩

/-- Sample rows used by the concrete witnesses below. -/
def uAlice : User := ⟨1, false⟩

/-- Sample superuser. -/
def uRoot : User := ⟨2, true⟩

/-- Sample authenticated user who uploaded nothing. -/
def uBob : User := ⟨3, false⟩

/-- Sample approved novel, uploaded by `uAlice`, category 3. -/
def novA : Novel := ⟨1, ['N'], ['A'], 3, [], 1, true⟩

/-- Sample pending chapter of `novA`, `sort_num` 1. -/
def chA1 : Chapter := ⟨1, 1, ['c'], 1, ['x'], 1, false⟩

/-- Sample approved chapter of `novA`, `sort_num` 2. -/
def chA2 : Chapter := ⟨2, 1, ['d'], 2, ['y'], 1, true⟩

/-- Sample approved chapter of `novA`, `sort_num` 4. -/
def chA3 : Chapter := ⟨3, 1, ['e'], 4, ['z'], 1, true⟩

/-- Evaluation of `next_sort_num` once the maximum of the novel's sort
numbers is known. -/
theorem next_sort_num_eq_of_maximum {chapters : List Chapter} {nid : Nat}
    {M : Int}
    (h : ((chapters.filter (fun c => c.novel_id == nid)).map
        (fun c => c.sort_num)).maximum = (M : WithBot Int)) :
    next_sort_num chapters nid = M + 1 := by
  simp only [next_sort_num]
  rw [h]

/-- CLAIM C7: the advisory next ordering number is 1 when the novel has no
chapters, and otherwise is one more than the maximum `sort_num` among the
novel's chapters. -/
theorem next_sort_num_spec (chapters : List Chapter) (nid : Nat) :
    ((∀ c ∈ chapters, c.novel_id ≠ nid) → next_sort_num chapters nid = 1) ∧
    (∀ c ∈ chapters, c.novel_id = nid →
      ∃ m : Int, (∃ d ∈ chapters, d.novel_id = nid ∧ d.sort_num = m) ∧
        (∀ d ∈ chapters, d.novel_id = nid → d.sort_num ≤ m) ∧
        next_sort_num chapters nid = m + 1) := by
  constructor
  · intro h
    have hnil : chapters.filter (fun c => c.novel_id == nid) = [] := by
      rw [List.filter_eq_nil_iff]
      intro c hc
      simpa using h c hc
    unfold next_sort_num
    simp [hnil]
  · intro c hc hcn
    have hmem : c.sort_num ∈ (chapters.filter (fun c => c.novel_id == nid)).map
        (fun c => c.sort_num) := by
      exact List.mem_map_of_mem _ (List.mem_filter.mpr ⟨hc, by simpa using hcn⟩)
    obtain ⟨M, hM⟩ : ∃ M : Int, ((chapters.filter (fun c => c.novel_id == nid)).map
        (fun c => c.sort_num)).maximum = (M : WithBot Int) := by
      cases hmax : ((chapters.filter (fun c => c.novel_id == nid)).map
          (fun c => c.sort_num)).maximum with
      | bot =>
        rw [List.maximum_eq_bot] at hmax
        rw [hmax] at hmem
        cases hmem
      | coe M => exact ⟨M, rfl⟩
    obtain ⟨hMmem, hMub⟩ := List.maximum_eq_coe_iff.mp hM
    obtain ⟨d, hd, hds⟩ := List.mem_map.mp hMmem
    obtain ⟨hdmem, hdfil⟩ := List.mem_filter.mp hd
    refine ⟨M, ⟨d, hdmem, by simpa using hdfil, hds⟩, ?_, ?_⟩
    · intro e he hen
      exact hMub _ (List.mem_map_of_mem _ (List.mem_filter.mpr ⟨he, by simpa using hen⟩))
    · exact next_sort_num_eq_of_maximum hM

/-- Witness for C7 on a table with sort numbers 1, 2 and 4: the advisory
next number is realised as a maximal member plus one (here 5). -/
theorem next_sort_num_spec_witness :
    chA1 ∈ [chA1, chA2, chA3] ∧ chA1.novel_id = 1 ∧
    (∃ m : Int, (∃ d ∈ [chA1, chA2, chA3], d.novel_id = 1 ∧ d.sort_num = m) ∧
      (∀ d ∈ [chA1, chA2, chA3], d.novel_id = 1 → d.sort_num ≤ m) ∧
      next_sort_num [chA1, chA2, chA3] 1 = m + 1) :=
  ⟨by decide, by decide,
   (next_sort_num_spec [chA1, chA2, chA3] 1).2 chA1 (by decide) (by decide)⟩

/-- CLAIM C10: in both approval views the superuser check runs before the
entity lookup, so an authenticated non-superuser gets Forbidden (and an
unchanged table) for every id — also for ids that resolve to no entity —
and never observes a not-found outcome. -/
theorem approve_forbidden_before_lookup (u : User) (novels : List Novel)
    (chapters : List Chapter) (nid cid : Nat)
    (h : u.is_superuser = false) :
    approve_novel (some u) novels nid = (.forbidden, novels) ∧
    approve_chapter (some u) chapters cid = (.forbidden, chapters) ∧
    (approve_novel (some u) novels nid).1 ≠ .notFound ∧
    (approve_chapter (some u) chapters cid).1 ≠ .notFound := by
  unfold approve_novel approve_chapter
  simp [h]

/-- Witness for C10: the regular user `uBob` is refused on an empty novels
table and on a chapters table without chapter 99. -/
theorem approve_forbidden_before_lookup_witness :
    uBob.is_superuser = false ∧
    approve_novel (some uBob) [] 99 = (.forbidden, []) ∧
    approve_chapter (some uBob) [chA1] 99 = (.forbidden, [chA1]) :=
  ⟨by decide,
   (approve_forbidden_before_lookup uBob [] [chA1] 99 99 (by decide)).1,
   (approve_forbidden_before_lookup uBob [] [chA1] 99 99 (by decide)).2.1⟩

/-- Saving a novel whose approval flag is already set leaves the row as it
was. -/
theorem updateNovel_approved_noop {novels : List Novel} {nid : Nat}
    (h : ∀ n ∈ novels, n.id = nid → n.is_approved = true) :
    updateNovel novels nid (fun n => { n with is_approved := true }) = novels := by
  unfold updateNovel
  induction novels with
  | nil => rfl
  | cons x xs ih =>
    simp only [List.map_cons, List.cons.injEq]
    constructor
    · by_cases hx : x.id == nid
      · have hap : x.is_approved = true := h x (by simp) (by simpa using hx)
        cases x
        simp_all
      · simp [hx]
    · exact ih (fun n hn hid => h n (List.mem_cons_of_mem _ hn) hid)

/-- Saving a chapter whose approval flag is already set leaves the row as
it was. -/
theorem updateChapter_approved_noop {chapters : List Chapter} {cid : Nat}
    (h : ∀ c ∈ chapters, c.id = cid → c.is_approved = true) :
    updateChapter chapters cid (fun c => { c with is_approved := true }) =
      chapters := by
  unfold updateChapter
  induction chapters with
  | nil => rfl
  | cons x xs ih =>
    simp only [List.map_cons, List.cons.injEq]
    constructor
    · by_cases hx : x.id == cid
      · have hap : x.is_approved = true := h x (by simp) (by simpa using hx)
        cases x
        simp_all
      · simp [hx]
    · exact ih (fun c hc hid => h c (List.mem_cons_of_mem _ hc) hid)

/-- CLAIM C5: the Pending-to-Approved transition succeeds only for a
superuser; an authenticated non-superuser gets Forbidden with an unchanged
table; and approving an already-approved novel or chapter is a no-op that
succeeds (the table is returned unchanged, with the entity still
approved). -/
theorem approve_requires_superuser_idempotent (viewer : Option User)
    (novels : List Novel) (chapters : List Chapter) (nid cid : Nat)
    (u : User) :
    ((approve_novel viewer novels nid).1 = .ok () →
      ∃ v, viewer = some v ∧ v.is_superuser = true) ∧
    ((approve_chapter viewer chapters cid).1 = .ok () →
      ∃ v, viewer = some v ∧ v.is_superuser = true) ∧
    (viewer = some u → u.is_superuser = false →
      approve_novel viewer novels nid = (.forbidden, novels) ∧
      approve_chapter viewer chapters cid = (.forbidden, chapters)) ∧
    (u.is_superuser = true →
      ((∃ n ∈ novels, n.id = nid) →
        (∀ n ∈ novels, n.id = nid → n.is_approved = true) →
        approve_novel (some u) novels nid = (.ok (), novels)) ∧
      ((∃ c ∈ chapters, c.id = cid) →
        (∀ c ∈ chapters, c.id = cid → c.is_approved = true) →
        approve_chapter (some u) chapters cid = (.ok (), chapters))) := by
  refine ⟨?_, ?_, ?_, ?_⟩
  · intro h
    unfold approve_novel at h
    cases viewer with
    | none => simp at h
    | some v =>
      refine ⟨v, rfl, ?_⟩
      by_cases hs : v.is_superuser
      · exact hs
      · simp [hs] at h
  · intro h
    unfold approve_chapter at h
    cases viewer with
    | none => simp at h
    | some v =>
      refine ⟨v, rfl, ?_⟩
      by_cases hs : v.is_superuser
      · exact hs
      · simp [hs] at h
  · intro hv hs
    subst hv
    unfold approve_novel approve_chapter
    simp [hs]
  · intro hs
    constructor
    · intro ⟨n, hn, hid⟩ hall
      unfold approve_novel
      have hfind : ∃ m, findNovel novels nid = some m := by
        unfold findNovel
        have : (novels.find? (fun n => n.id == nid)).isSome := by
          rw [List.find?_isSome]
          exact ⟨n, hn, by simpa using hid⟩
        exact Option.isSome_iff_exists.mp this
      obtain ⟨m, hm⟩ := hfind
      have hmid : m.id = nid := by
        have := List.find?_some (p := fun (n : Novel) => n.id == nid) (by
          unfold findNovel at hm; exact hm)
        simpa using this
      rw [hm]
      simp [hs, hmid, updateNovel_approved_noop hall]
  
    · intro ⟨c, hc, hid⟩ hall
      unfold approve_chapter
      have hfind : ∃ m, findChapter chapters cid = some m := by
        unfold findChapter
        have : (chapters.find? (fun c => c.id == cid)).isSome := by
          rw [List.find?_isSome]
          exact ⟨c, hc, by simpa using hid⟩
        exact Option.isSome_iff_exists.mp this
      obtain ⟨m, hm⟩ := hfind
      have hmid : m.id = cid := by
        have := List.find?_some (p := fun (c : Chapter) => c.id == cid) (by
          unfold findChapter at hm; exact hm)
        simpa using this
      rw [hm]
      simp [hs, hmid, updateChapter_approved_noop hall]

/-- Witness for C5: the superuser `uRoot` re-approves the already-approved
novel `novA`, a successful no-op. -/
theorem approve_requires_superuser_idempotent_witness :
    uRoot.is_superuser = true ∧ (∃ n ∈ [novA], n.id = 1) ∧
    (∀ n ∈ [novA], n.id = 1 → n.is_approved = true) ∧
    approve_novel (some uRoot) [novA] 1 = (.ok (), [novA]) :=
  ⟨by decide, by decide, by decide,
   ((approve_requires_superuser_idempotent (some uRoot) [novA] [] 1 0
      uRoot).2.2.2 (by decide)).1 (by decide) (by decide)⟩

/-- Any row of an updated chapters table comes from a row of the original
table, updated when its id matches. -/
theorem updateChapter_mem {chapters : List Chapter} {cid : Nat}
    {f : Chapter → Chapter} {ch : Chapter}
    (h : ch ∈ updateChapter chapters cid f) :
    ∃ x ∈ chapters, ch = if x.id == cid then f x else x := by
  unfold updateChapter at h
  obtain ⟨x, hx, hfx⟩ := List.mem_map.mp h
  exact ⟨x, hx, hfx.symm⟩

/-- Any row of an updated novels table comes from a row of the original
table, updated when its id matches. -/
theorem updateNovel_mem {novels : List Novel} {nid : Nat}
    {f : Novel → Novel} {n : Novel}
    (h : n ∈ updateNovel novels nid f) :
    ∃ x ∈ novels, n = if x.id == nid then f x else x := by
  unfold updateNovel at h
  obtain ⟨x, hx, hfx⟩ := List.mem_map.mp h
  exact ⟨x, hx, hfx.symm⟩

/-- Inversion of a successful `edit_chapter` POST: the viewer was
authenticated, the chapter was found, the ordering number parsed, and the
new table is the in-place update that also clears the approval flag. -/
theorem edit_chapter_ok_shape {viewer : Option User} {chapters : List Chapter}
    {cid : Nat} {t s c : Str}
    (h : (edit_chapter viewer chapters cid t s c).1 = .ok ()) :
    ∃ u ch0 sn, viewer = some u ∧ findChapter chapters cid = some ch0 ∧
      ch0.id = cid ∧ pyParseInt s = some sn ∧
      (edit_chapter viewer chapters cid t s c).2 =
        updateChapter chapters ch0.id (fun x =>
          { x with title := t, sort_num := sn, content := c,
                   is_approved := false }) := by
  unfold edit_chapter at h ⊢
  cases viewer with
  | none => simp at h
  | some u =>
    dsimp only at h ⊢
    cases hf : findChapter chapters cid with
    | none => rw [hf] at h; simp at h
    | some ch0 =>
      rw [hf] at h
      dsimp only at h ⊢
      have hid : ch0.id = cid := by
        have := List.find?_some (p := fun (c : Chapter) => c.id == cid)
          (by unfold findChapter at hf; exact hf)
        simpa using this
      by_cases hperm : (ch0.uploader != u.id && !u.is_superuser) = true
      · rw [if_pos hperm] at h; simp at h
      · rw [if_neg hperm] at h ⊢
        by_cases hempty : (t.isEmpty || s.isEmpty || c.isEmpty) = true
        · rw [if_pos hempty] at h; simp at h
        · rw [if_neg hempty] at h ⊢
          cases hp : pyParseInt s with
          | none => rw [hp] at h; simp at h
          | some sn =>
            rw [hp] at h
            dsimp only at h ⊢
            by_cases hdup : (chapters.any (fun x => x.novel_id == ch0.novel_id &&
                x.sort_num == sn && x.id != ch0.id)) = true
            · rw [if_pos hdup] at h; simp at h
            · rw [if_neg hdup]
              exact ⟨u, ch0, sn, rfl, rfl, hid, rfl, rfl⟩

/-- Inversion of a successful `edit_novel` POST: the viewer was
authenticated, the novel was found, the category id parsed and exists, and
the new table is the in-place update of title, author, category and intro
(the approval flag is not assigned). -/
theorem edit_novel_ok_shape {viewer : Option User} {novels : List Novel}
    {cats : List Nat} {nid : Nat} {t a cs i : Str}
    (h : (edit_novel viewer novels cats nid t a cs i).1 = .ok ()) :
    ∃ u n0 ci, viewer = some u ∧ findNovel novels nid = some n0 ∧
      n0.id = nid ∧ pyParseInt cs = some ci ∧
      (edit_novel viewer novels cats nid t a cs i).2 =
        updateNovel novels n0.id (fun x =>
          { x with title := t, author := a, category_id := ci.toNat,
                   intro := i }) := by
  unfold edit_novel at h ⊢
  cases viewer with
  | none => simp at h
  | some u =>
    dsimp only at h ⊢
    cases hf : findNovel novels nid with
    | none => rw [hf] at h; simp at h
    | some n0 =>
      rw [hf] at h
      dsimp only at h ⊢
      have hid : n0.id = nid := by
        have := List.find?_some (p := fun (n : Novel) => n.id == nid)
          (by unfold findNovel at hf; exact hf)
        simpa using this
      by_cases hperm : (n0.uploader != u.id && !u.is_superuser) = true
      · rw [if_pos hperm] at h; simp at h
      · rw [if_neg hperm] at h ⊢
        by_cases hempty : (t.isEmpty || a.isEmpty || cs.isEmpty) = true
        · rw [if_pos hempty] at h; simp at h
        · rw [if_neg hempty] at h ⊢
          cases hp : pyParseInt cs with
          | none => rw [hp] at h; simp at h
          | some ci =>
            rw [hp] at h
            dsimp only at h ⊢
            by_cases hcat : (cats.any (fun k => (k : Int) == ci)) = true
            · rw [if_pos hcat]
              exact ⟨u, n0, ci, rfl, rfl, hid, rfl, rfl⟩
            · rw [if_neg hcat] at h
              simp at h

/-- CLAIM C2: a successful chapter edit leaves the edited row with
`is_approved = false` whatever its prior value (other rows untouched),
while a successful novel edit updates title, author, category and intro
but leaves `is_approved` exactly as it was. -/
theorem edit_resets_chapter_approval_not_novel (viewer : Option User)
    (chapters : List Chapter) (cid : Nat) (t s c : Str)
    (novels : List Novel) (cats : List Nat) (nid : Nat)
    (ta au cs ii : Str) :
    ((edit_chapter viewer chapters cid t s c).1 = .ok () →
      ∀ ch ∈ (edit_chapter viewer chapters cid t s c).2,
        (ch.id = cid → ch.is_approved = false) ∧
        (ch.id ≠ cid → ch ∈ chapters)) ∧
    ((edit_novel viewer novels cats nid ta au cs ii).1 = .ok () →
      ∀ n ∈ (edit_novel viewer novels cats nid ta au cs ii).2,
        (n.id = nid → ∃ n0 ∈ novels, n0.id = nid ∧
          n.is_approved = n0.is_approved ∧ n.title = ta ∧ n.author = au ∧
          n.intro = ii ∧
          ∃ ci, pyParseInt cs = some ci ∧ n.category_id = ci.toNat) ∧
        (n.id ≠ nid → n ∈ novels)) := by
  constructor
  · intro h ch hch
    obtain ⟨u, ch0, sn, _, _, hid, _, hsnd⟩ := edit_chapter_ok_shape h
    rw [hsnd] at hch
    obtain ⟨x, hx, hxe⟩ := updateChapter_mem hch
    by_cases hxid : (x.id == ch0.id) = true
    · rw [if_pos hxid] at hxe
      subst hxe
      have hxeq : x.id = cid := (show x.id = ch0.id by simpa using hxid).trans hid
      exact ⟨fun _ => rfl, fun hne => absurd hxeq hne⟩
    · rw [if_neg hxid] at hxe
      subst hxe
      have hxne : ch.id ≠ ch0.id := by simpa using hxid
      exact ⟨fun heq => absurd (heq.trans hid.symm) hxne, fun _ => hx⟩
  · intro h n hn
    obtain ⟨u, n0, ci, _, _, hid, hp, hsnd⟩ := edit_novel_ok_shape h
    rw [hsnd] at hn
    obtain ⟨x, hx, hxe⟩ := updateNovel_mem hn
    by_cases hxid : (x.id == n0.id) = true
    · rw [if_pos hxid] at hxe
      subst hxe
      have hxeq : x.id = nid := (show x.id = n0.id by simpa using hxid).trans hid
      exact ⟨fun _ => ⟨x, hx, hxeq, rfl, rfl, rfl, rfl, ci, hp, rfl⟩,
        fun hne => absurd hxeq hne⟩
    · rw [if_neg hxid] at hxe
      subst hxe
      have hxne : n.id ≠ n0.id := by simpa using hxid
      exact ⟨fun heq => absurd (heq.trans hid.symm) hxne, fun _ => hx⟩

/-- Witness for C2: `uAlice` edits chapter 2 (previously approved) giving
it sort number 3; the edited row ends unapproved, and edits novel 1, whose
approval flag survives unchanged. -/
theorem edit_resets_chapter_approval_not_novel_witness :
    ((edit_chapter (some uAlice) [chA1, chA2] 2 ['t'] ['3'] ['c']).1 =
        .ok () ∧
      ∀ ch ∈ (edit_chapter (some uAlice) [chA1, chA2] 2 ['t'] ['3'] ['c']).2,
        (ch.id = 2 → ch.is_approved = false) ∧
        (ch.id ≠ 2 → ch ∈ [chA1, chA2])) ∧
    ((edit_novel (some uAlice) [novA] [5] 1 ['t'] ['a'] ['5'] ['i']).1 =
        .ok () ∧
      ∀ n ∈ (edit_novel (some uAlice) [novA] [5] 1 ['t'] ['a'] ['5'] ['i']).2,
        (n.id = 1 → ∃ n0 ∈ [novA], n0.id = 1 ∧
          n.is_approved = n0.is_approved ∧ n.title = ['t'] ∧
          n.author = ['a'] ∧ n.intro = ['i'] ∧
          ∃ ci, pyParseInt ['5'] = some ci ∧ n.category_id = ci.toNat) ∧
        (n.id ≠ 1 → n ∈ [novA])) :=
  ⟨⟨by decide,
    (edit_resets_chapter_approval_not_novel (some uAlice) [chA1, chA2] 2
      ['t'] ['3'] ['c'] [novA] [5] 1 ['t'] ['a'] ['5'] ['i']).1 (by decide)⟩,
   ⟨by decide,
    (edit_resets_chapter_approval_not_novel (some uAlice) [chA1, chA2] 2
      ['t'] ['3'] ['c'] [novA] [5] 1 ['t'] ['a'] ['5'] ['i']).2 (by decide)⟩⟩

/-- CLAIM C6: an authenticated comment submission on an existing chapter
fails with the empty-content error when the text strips to nothing, fails
with the too-long error when the stripped text exceeds 500 characters, and
otherwise — in particular at exactly 500 characters — succeeds, appending
a comment tied to the chapter and the submitting user; on failure the
comments table is unchanged. -/
theorem add_comment_gate (viewer : Option User) (chapters : List Chapter)
    (comments : List Comment) (cid newId : Nat) (raw : Str) (u : User)
    (ch0 : Chapter) (hv : viewer = some u)
    (hf : findChapter chapters cid = some ch0) :
    (pyStrip raw = [] →
      add_comment viewer chapters comments cid raw newId =
        (.formError .emptyContent, comments)) ∧
    (pyStrip raw ≠ [] → (pyStrip raw).length > 500 →
      add_comment viewer chapters comments cid raw newId =
        (.formError .contentTooLong, comments)) ∧
    (pyStrip raw ≠ [] → (pyStrip raw).length ≤ 500 →
      add_comment viewer chapters comments cid raw newId =
        (.ok (), comments ++ [⟨newId, ch0.id, u.id, pyStrip raw, true⟩])) := by
  subst hv
  unfold add_comment
  dsimp only
  rw [hf]
  dsimp only
  refine ⟨?_, ?_, ?_⟩
  · intro he
    rw [if_pos (by simpa [List.isEmpty_iff] using he)]
  · intro hne hlong
    rw [if_neg (by simpa [List.isEmpty_iff] using hne),
      if_pos (by simpa using hlong)]
  · intro hne hle
    rw [if_neg (by simpa [List.isEmpty_iff] using hne),
      if_neg (by simpa using hle)]

set_option maxRecDepth 20000

/-- Witness for C6: `uBob` posts a comment of exactly 500 characters on the
approved chapter 2; it is created, tied to chapter 2 and to `uBob`. -/
theorem add_comment_gate_witness :
    pyStrip (List.replicate 500 'a') ≠ [] ∧
    (pyStrip (List.replicate 500 'a')).length ≤ 500 ∧
    add_comment (some uBob) [chA2] [] 2 (List.replicate 500 'a') 9 =
      (.ok (), [] ++ [⟨9, chA2.id, uBob.id, pyStrip (List.replicate 500 'a'), true⟩]) :=
  ⟨by decide, by decide,
   (add_comment_gate (some uBob) [chA2] [] 2 9 (List.replicate 500 'a') uBob
      chA2 rfl (by decide)).2.2 (by decide) (by decide)⟩

/-- CLAIM C9 (code bug): the visibility condition of `chapter_detail`
matches the claim (approved, or authenticated as uploader or superuser),
but the failure path does not: `raise Http404` at src/views.py:354 refers
to a name that is never imported, so a request for a non-visible chapter
dies with `NameError` — a server error, not the claimed not-found
condition.  Evaluated at the failing input: the anonymous viewer asking
for the pending chapter 1. -/
theorem chapter_detail_invisible_server_error :
    chA1.is_approved = false ∧ canViewChapter none chA1 = false ∧
    chapter_detail none [chA1] [] 1 = .serverError ∧
    chapter_detail none [chA1] [] 1 ≠ .notFound ∧
    chapter_detail none [chA1] [] 1 ≠ .forbidden := by
  decide

/-- Counterexample to C4 as stated: the chapter list is served from behind
`login_required`, so the anonymous viewer is redirected to the login page
instead of receiving the list of approved chapters of novel 1. -/
theorem chapter_list_requires_login_cex :
    chapter_list none [novA] [chA2] 1 = .redirectLogin ∧
    (Http.redirectLogin : Http (List Chapter)) ≠ .ok [chA2] := by
  decide

/-- CLAIM C4 (amended): the chapter list requires authentication (an
anonymous viewer is redirected to login); an authenticated viewer who is
neither the novel's uploader nor a superuser gets exactly the novel's
approved chapters, and the uploader or a superuser gets all of the
novel's chapters. -/
theorem chapter_list_amended (viewer : Option User) (novels : List Novel)
    (chapters : List Chapter) (nid : Nat) :
    (viewer = none → chapter_list viewer novels chapters nid =
      .redirectLogin) ∧
    (∀ u novel, viewer = some u → findNovel novels nid = some novel →
      ((novel.uploader ≠ u.id ∧ u.is_superuser = false) →
        ∃ l, chapter_list viewer novels chapters nid = .ok l ∧
          ∀ c, (c ∈ l ↔ c ∈ chapters ∧ c.novel_id = novel.id ∧
            c.is_approved = true)) ∧
      ((novel.uploader = u.id ∨ u.is_superuser = true) →
        ∃ l, chapter_list viewer novels chapters nid = .ok l ∧
          ∀ c, (c ∈ l ↔ c ∈ chapters ∧ c.novel_id = novel.id))) := by
  constructor
  · intro hv
    subst hv
    rfl
  · intro u novel hv hf
    subst hv
    unfold chapter_list
    dsimp only
    rw [hf]
    dsimp only
    constructor
    · intro ⟨hne, hns⟩
      rw [if_pos (by simp [hne, hns])]
      refine ⟨_, rfl, fun c => ?_⟩
      simp only [List.mem_filter, Bool.and_eq_true, beq_iff_eq, and_assoc]
    · intro hor
      have hcond : ¬(novel.uploader != u.id && !u.is_superuser) = true := by
        rcases hor with h | h <;> simp [h]
      rw [if_neg hcond]
      exact ⟨_, rfl, fun c => by simp [List.mem_filter]⟩

/-- Witness for C4 (amended): `uBob`, neither uploader nor superuser, sees
exactly the approved chapters of novel 1. -/
theorem chapter_list_amended_witness :
    findNovel [novA] 1 = some novA ∧
    novA.uploader ≠ uBob.id ∧ uBob.is_superuser = false ∧
    ∃ l, chapter_list (some uBob) [novA] [chA1, chA2] 1 = .ok l ∧
      ∀ c, (c ∈ l ↔ c ∈ [chA1, chA2] ∧ c.novel_id = novA.id ∧
        c.is_approved = true) :=
  ⟨by decide, by decide, by decide,
   ((chapter_list_amended (some uBob) [novA] [chA1, chA2] 1).2 uBob novA rfl
     (by decide)).1 ⟨by decide, by decide⟩⟩

/-- CLAIM C3 (code bug): the neighbour queries of `chapter_detail` never
apply the approval filter — the `if not can_view` guard at
src/views.py:373 is unreachable after the earlier 404 gate, contradicting
the inline comment there and the spec — so the anonymous viewer of the
approved chapter 2 is offered the pending chapter 1 (invisible to them)
as the previous chapter, where the specified neighbour rule yields no
navigation target. -/
theorem chapter_detail_neighbor_pending_leak :
    chA1.is_approved = false ∧ canViewChapter none chA1 = false ∧
    chapter_detail none [chA1, chA2] [] 2 =
      .ok ⟨chA2, [], [['y']], some chA1, none⟩ := by
  decide

/-- CLAIM C8: once a chapter creation or edit reaches ordering validation
(authorized caller, nonempty fields), a candidate that does not parse as
an integer fails with the invalid-format error, and a parsed candidate
fails with the duplicate-ordering error exactly when another chapter of
the same novel (excluding the edited chapter itself) already carries that
`sort_num`; on either failure the chapters table is unchanged. -/
theorem sort_num_validation (viewer : Option User) (novels : List Novel)
    (chapters : List Chapter) (nid cid newId : Nat) (t s c : Str)
    (u : User) (novel : Novel) (ch0 : Chapter) :
    (viewer = some u → findNovel novels nid = some novel →
      novel.uploader = u.id → t ≠ [] → s ≠ [] → c ≠ [] →
      ((pyParseInt s = none →
        add_chapter viewer novels chapters nid t s c newId =
          (.formError .invalidFormat, chapters)) ∧
       (∀ sn, pyParseInt s = some sn →
        (add_chapter viewer novels chapters nid t s c newId =
            (.formError .duplicateOrdering, chapters) ↔
          ∃ d ∈ chapters, d.novel_id = novel.id ∧ d.sort_num = sn)))) ∧
    (viewer = some u → findChapter chapters cid = some ch0 →
      (ch0.uploader = u.id ∨ u.is_superuser = true) →
      t ≠ [] → s ≠ [] → c ≠ [] →
      ((pyParseInt s = none →
        edit_chapter viewer chapters cid t s c =
          (.formError .invalidFormat, chapters)) ∧
       (∀ sn, pyParseInt s = some sn →
        (edit_chapter viewer chapters cid t s c =
            (.formError .duplicateOrdering, chapters) ↔
          ∃ d ∈ chapters, d.novel_id = ch0.novel_id ∧ d.sort_num = sn ∧
            d.id ≠ ch0.id)))) := by
  constructor
  · intro hv hf hup ht hs hc
    subst hv
    unfold add_chapter
    dsimp only
    rw [hf]
    dsimp only
    rw [if_neg (show ¬(novel.uploader != u.id) = true by simp [hup])]
    rw [if_neg (show ¬(t.isEmpty || s.isEmpty || c.isEmpty) = true by
      simp [List.isEmpty_iff, ht, hs, hc])]
    refine ⟨?_, ?_⟩
    · intro hp
      rw [hp]
    · intro sn hp
      rw [hp]
      dsimp only
      by_cases hdup : (chapters.any (fun d => d.novel_id == novel.id &&
          d.sort_num == sn)) = true
      · rw [if_pos hdup]
        exact ⟨fun _ => by simpa using hdup, fun _ => rfl⟩
      · rw [if_neg hdup]
        exact ⟨fun heq => absurd heq (by simp),
          fun hex => absurd (by simpa using hex) hdup⟩
  · intro hv hf hperm ht hs hc
    subst hv
    unfold edit_chapter
    dsimp only
    rw [hf]
    dsimp only
    rw [if_neg (show ¬(ch0.uploader != u.id && !u.is_superuser) = true by
      rcases hperm with h | h <;> simp [h])]
    rw [if_neg (show ¬(t.isEmpty || s.isEmpty || c.isEmpty) = true by
      simp [List.isEmpty_iff, ht, hs, hc])]
    refine ⟨?_, ?_⟩
    · intro hp
      rw [hp]
    · intro sn hp
      rw [hp]
      dsimp only
      by_cases hdup : (chapters.any (fun d => d.novel_id == ch0.novel_id &&
          d.sort_num == sn && d.id != ch0.id)) = true
      · rw [if_pos hdup]
        exact ⟨fun _ => by simpa [and_assoc] using hdup, fun _ => rfl⟩
      · rw [if_neg hdup]
        exact ⟨fun heq => absurd heq (by simp),
          fun hex => absurd (by simpa [and_assoc] using hex) hdup⟩

/-- Witness for C8: `uAlice` adds a chapter to novel 1 reusing sort number
1, which chapter 1 already carries; the request fails with the
duplicate-ordering error and the table is unchanged. -/
theorem sort_num_validation_witness :
    pyParseInt ['1'] = some 1 ∧
    (add_chapter (some uAlice) [novA] [chA1] 1 ['t'] ['1'] ['c'] 9 =
        (.formError .duplicateOrdering, [chA1]) ↔
      ∃ d ∈ [chA1], d.novel_id = novA.id ∧ d.sort_num = 1) :=
  ⟨by decide,
   ((sort_num_validation (some uAlice) [novA] [chA1] 1 0 9 ['t'] ['1'] ['c']
      uAlice novA chA1).1 rfl (by decide) (by decide) (by decide) (by decide)
      (by decide)).2 1 (by decide)⟩
